import Mathlib

/-!
# Verification of the madeleine Bond Compact Binary decoder

Shallow embedding of the Python sources:

* `src/madeleine/_bond_types.py`  — the `BondType` wire-tag enumeration,
* `src/madeleine/_uleb.py`        — ULEB128 / zig-zag SLEB128 varint decoding,
* `src/madeleine/_bond_reader.py` — the recursive-descent reader,
* `src/madeleine/_madeleine.py`   — the `BondValue` tree and its navigation.

The byte source (`io.BufferedReader`) is modelled as the list of bytes still
to be read: `read(n)` takes up to `n` bytes off the front (Python's `read`
returns fewer bytes at end-of-file without raising), `seek(n, 1)` drops `n`
bytes.  A byte is a `Nat` (always `< 256` when it comes from a real stream).

Python exceptions are modelled by `Except DecodeError`.  The repository's
`_errors.py` module is not among the sources; only the error *names* are
taken from it (via the imports in `_bond_reader.py`), the raising sites are
all in the files above.  Indexing an empty `bytes` (`data.read(1)[0]` at
end-of-file) raises `IndexError` in Python; that failure mode is
`DecodeError.truncatedInput` here.  `struct.unpack` with a short buffer
raises `struct.error`, modelled as `DecodeError.unpackError`.  An invalid
enum code (`BondType(x)` with an uncatalogued `x`) raises `ValueError`,
modelled as `DecodeError.invalidTag`.

The mutually recursive reader functions take a fuel parameter (decremented
on every nested call) so that they are structurally recursive and compute
by `rfl`/`decide`; `DecodeError.outOfFuel` marks fuel exhaustion, which
never occurs for the concrete fuels used in the theorems below.
-/

namespace Madeleine

/-- Enumeration `BondType` from `src/madeleine/_bond_types.py`: the closed enumeration of
wire type tags with their fixed numeric codes. -/
inductive BondType : Type where
  | Stop
  | StopBase
  | Bool
  | Uint8
  | Uint16
  | Uint32
  | Uint64
  | Float
  | Double
  | String
  | Struct
  | List
  | Set
  | Map
  | Int8
  | Int16
  | Int32
  | Int64
  | Wstring
  | Unavailable
  deriving DecidableEq, Repr

/-- The numeric wire code of each `BondType` (the `IntEnum` values). -/
def BondType.code : BondType → Nat
  | .Stop => 0
  | .StopBase => 1
  | .Bool => 2
  | .Uint8 => 3
  | .Uint16 => 4
  | .Uint32 => 5
  | .Uint64 => 6
  | .Float => 7
  | .Double => 8
  | .String => 9
  | .Struct => 10
  | .List => 11
  | .Set => 12
  | .Map => 13
  | .Int8 => 14
  | .Int16 => 15
  | .Int32 => 16
  | .Int64 => 17
  | .Wstring => 18
  | .Unavailable => 127

/-- Conversion `BondType(n)` as a partial function: `some t` when `n` is a catalogued
code, `none` otherwise (Python raises `ValueError`). -/
def toBondType : Nat → Option BondType
  | 0 => some .Stop
  | 1 => some .StopBase
  | 2 => some .Bool
  | 3 => some .Uint8
  | 4 => some .Uint16
  | 5 => some .Uint32
  | 6 => some .Uint64
  | 7 => some .Float
  | 8 => some .Double
  | 9 => some .String
  | 10 => some .Struct
  | 11 => some .List
  | 12 => some .Set
  | 13 => some .Map
  | 14 => some .Int8
  | 15 => some .Int16
  | 16 => some .Int32
  | 17 => some .Int64
  | 18 => some .Wstring
  | 127 => some .Unavailable
  | _ => none

/-- The failure modes of decoding (see the module docstring for the mapping
to the Python exceptions). -/
inductive DecodeError : Type where
  | truncatedInput
  | invalidTag
  | stringRead
  | wstringRead
  | unpackError
  | outOfFuel
  deriving DecidableEq, Repr

/-- The payload of a `BondValue` (`value` attribute in `_madeleine.py`),
parametric in the node type to allow the nested tree.  `int` covers Python's
unified arbitrary-precision integers (signed and unsigned scalars alike);
`str` stores the sequence of Unicode code points of a Python `str`;
`floatBits` stores the raw little-endian IEEE-754 bytes of a Float/Double
field (the numeric float interpretation is not modelled — no claim concerns
float values, only the bytes consumed); `mapPairs` stores the Python `dict`
as its insertion-ordered (key, value) pairs — `BondValue` defines neither
`__eq__` nor `__hash__`, so dict keys compare by object identity, and since
every decoded key is a freshly constructed object each insertion appends a
new entry. -/
inductive BondPayload (V : Type) : Type where
  | none
  | int (i : Int)
  | bool (b : Bool)
  | floatBits (bytes : List Nat)
  | str (codepoints : List Nat)
  | seq (elems : List V)
  | mapPairs (pairs : List (V × V))

/-- Class `BondValue` from `src/madeleine/_madeleine.py`: an id, a type tag and a
payload. -/
inductive BondValue : Type where
  | mk (id : Nat) (type : BondType) (value : BondPayload BondValue)

/-- The `id` attribute. -/
def BondValue.id : BondValue → Nat
  | .mk i _ _ => i

/-- The `type` attribute. -/
def BondValue.type : BondValue → BondType
  | .mk _ t _ => t

/-- The `value` attribute. -/
def BondValue.value : BondValue → BondPayload BondValue
  | .mk _ _ v => v

/-- Model of `data.read(1)[0]`: take one byte off the stream.  At end-of-file Python's
`read(1)` returns `b''` and indexing it raises `IndexError`
(`truncatedInput` here). -/
def read1 : List Nat → Except DecodeError (Nat × List Nat)
  | [] => .error .truncatedInput
  | b :: rest => .ok (b, rest)

/-- Model of `int.from_bytes(bs, byteorder="little")`: little-endian value of a byte
string (the empty string gives `0`). -/
def fromLE (bs : List Nat) : Nat :=
  bs.foldr (fun b acc => b + 256 * acc) 0

/-- The loop of `_uleb128_decode` from `src/madeleine/_uleb.py`, with the
running `shift` and `result` made explicit.  Python's `result` is an
arbitrary-precision `int`: `result |= (b & 0x7F) << shift` never overflows
or wraps. -/
def uleb128_loop : List Nat → Nat → Nat → Except DecodeError (Nat × List Nat)
  | [], _, _ => .error .truncatedInput
  | b :: rest, shift, result =>
    let result' := result ||| ((b &&& 0x7F) <<< shift)
    if b &&& 0x80 = 0 then .ok (result', rest)
    else uleb128_loop rest (shift + 7) result'

/-- Function `_uleb128_decode` from `src/madeleine/_uleb.py`. -/
def uleb128_decode (s : List Nat) : Except DecodeError (Nat × List Nat) :=
  uleb128_loop s 0 0

/-- Function `_sleb128_decode` from `src/madeleine/_uleb.py`: decode an unsigned
varint `u`, then zig-zag it via `(u >> 1) ^ -(u & 1)`.  On Python's
two's-complement `int`, `x ^ -1 = -(x + 1)` and `x ^ 0 = x`, so the result
is `u / 2` for even `u` and `-(u / 2) - 1` for odd `u`. -/
def sleb128_decode (s : List Nat) : Except DecodeError (Int × List Nat) :=
  match uleb128_decode s with
  | .error e => .error e
  | .ok (u, rest) =>
    .ok (if u % 2 = 0 then (u / 2 : Int) else -((u / 2 : Int)) - 1, rest)

/-- Function `_type_and_id` from `src/madeleine/_bond_reader.py`: read one byte, the
low 5 bits are the type tag (converted before any id byte is consumed, as in
the source), the high 3 bits select the id: selectors 0–5 are the id itself,
selector 6 reads one extra byte, selector 7 reads two extra bytes
little-endian (`int.from_bytes(data.read(2), "little")`, which accepts a
short read without raising). -/
def type_and_id (s : List Nat) : Except DecodeError ((Nat × BondType) × List Nat) :=
  match read1 s with
  | .error e => .error e
  | .ok (id_and_type, s1) =>
    match toBondType (id_and_type &&& 0x1F) with
    | Option.none => .error .invalidTag
    | some bond_type =>
      let id := id_and_type >>> 5
      if id = 6 then
        match read1 s1 with
        | .error e => .error e
        | .ok (b, s2) => .ok ((b, bond_type), s2)
      else if id = 7 then
        .ok ((fromLE (s1.take 2), bond_type), s1.drop 2)
      else
        .ok ((id, bond_type), s1)

/-- Function `_get_type_count` from `src/madeleine/_bond_reader.py`: read one byte,
the low 5 bits are the element type tag, the high 3 bits are the count
selector: selector 0 means the count follows as an unsigned varint,
otherwise the count is `selector - 1`. -/
def get_type_count (s : List Nat) : Except DecodeError ((BondType × Nat) × List Nat) :=
  match read1 s with
  | .error e => .error e
  | .ok (len_and_type, s1) =>
    match toBondType (len_and_type &&& 0x1F) with
    | Option.none => .error .invalidTag
    | some bond_type =>
      let length := len_and_type >>> 5
      if length = 0 then
        match uleb128_decode s1 with
        | .error e => .error e
        | .ok (n, s2) => .ok ((bond_type, n), s2)
      else
        .ok ((bond_type, length - 1), s1)

/-- Strict UTF-8 decoding as performed by Python's `bytes.decode("utf-8")`:
returns the code points, or `none` on any invalid, overlong, surrogate or
out-of-range sequence. -/
def utf8Decode : List Nat → Option (List Nat)
  | [] => some []
  | b :: rest =>
    if b < 0x80 then
      (utf8Decode rest).map (b :: ·)
    else if b < 0xC2 then
      Option.none
    else if b < 0xE0 then
      match rest with
      | b1 :: r =>
        if 0x80 ≤ b1 ∧ b1 < 0xC0 then
          (utf8Decode r).map ((((b - 0xC0) <<< 6) + (b1 - 0x80)) :: ·)
        else Option.none
      | _ => Option.none
    else if b < 0xF0 then
      match rest with
      | b1 :: b2 :: r =>
        let lo1 := if b = 0xE0 then 0xA0 else 0x80
        let hi1 := if b = 0xED then 0xA0 else 0xC0
        if (lo1 ≤ b1 ∧ b1 < hi1) ∧ (0x80 ≤ b2 ∧ b2 < 0xC0) then
          (utf8Decode r).map
            ((((b - 0xE0) <<< 12) + ((b1 - 0x80) <<< 6) + (b2 - 0x80)) :: ·)
        else Option.none
      | _ => Option.none
    else if b < 0xF5 then
      match rest with
      | b1 :: b2 :: b3 :: r =>
        let lo1 := if b = 0xF0 then 0x90 else 0x80
        let hi1 := if b = 0xF4 then 0x90 else 0xC0
        if (lo1 ≤ b1 ∧ b1 < hi1) ∧ (0x80 ≤ b2 ∧ b2 < 0xC0) ∧
            (0x80 ≤ b3 ∧ b3 < 0xC0) then
          (utf8Decode r).map
            ((((b - 0xF0) <<< 18) + ((b1 - 0x80) <<< 12) +
              ((b2 - 0x80) <<< 6) + (b3 - 0x80)) :: ·)
        else Option.none
      | _ => Option.none
    else Option.none

/-- UTF-16 code-unit decoding at a fixed endianness: pairs of bytes become
units, surrogate pairs combine, a trailing lone byte, a lone surrogate or an
unpaired high surrogate is an error. -/
def utf16Units (le : Bool) : List Nat → Option (List Nat)
  | [] => some []
  | [_] => Option.none
  | b0 :: b1 :: rest =>
    let u := if le then b0 + 256 * b1 else b1 + 256 * b0
    if u < 0xD800 ∨ 0xE000 ≤ u then
      (utf16Units le rest).map (u :: ·)
    else if u < 0xDC00 then
      match rest with
      | c0 :: c1 :: r =>
        let v := if le then c0 + 256 * c1 else c1 + 256 * c0
        if 0xDC00 ≤ v ∧ v < 0xE000 then
          (utf16Units le r).map
            ((0x10000 + (u - 0xD800) * 0x400 + (v - 0xDC00)) :: ·)
        else Option.none
      | _ => Option.none
    else Option.none

/-- Model of `bytes.decode("utf-16")` as used by `_read_wstring`: a leading BOM picks
the byte order and is stripped, otherwise the platform's native order is
assumed (little-endian, as on the reference platform). -/
def utf16Decode (bs : List Nat) : Option (List Nat) :=
  match bs with
  | 0xFF :: 0xFE :: rest => utf16Units true rest
  | 0xFE :: 0xFF :: rest => utf16Units false rest
  | rest => utf16Units true rest

/-- Function `_read_string` from `src/madeleine/_bond_reader.py`: an unsigned varint
byte count, then that many bytes decoded as UTF-8 (`data.read(length)`
returns fewer bytes at end-of-file, hence the `take`); a
`UnicodeDecodeError` is re-raised as `StringReadError`. -/
def read_string (s : List Nat) : Except DecodeError (List Nat × List Nat) :=
  match uleb128_decode s with
  | .error e => .error e
  | .ok (length, s1) =>
    match utf8Decode (s1.take length) with
    | some cps => .ok (cps, s1.drop length)
    | Option.none => .error .stringRead

/-- Function `_read_wstring` from `src/madeleine/_bond_reader.py`: an unsigned varint
character count `n`, then `2 * n` bytes decoded as UTF-16; a
`UnicodeDecodeError` is re-raised as `WStringReadError`. -/
def read_wstring (s : List Nat) : Except DecodeError (List Nat × List Nat) :=
  match uleb128_decode s with
  | .error e => .error e
  | .ok (length, s1) =>
    match utf16Decode (s1.take (length * 2)) with
    | some cps => .ok (cps, s1.drop (length * 2))
    | Option.none => .error .wstringRead

mutual

/-- Function `_read_value` from `src/madeleine/_bond_reader.py`: dispatch on the type
tag.  `Stop`, `StopBase` and `Unavailable` consume nothing and leave the
payload `None`.  `Float`/`Double` use `struct.unpack`, which raises
`struct.error` unless the buffer holds exactly 4 resp. 8 bytes; `Int8` uses
`struct.unpack("b", ...)` (two's complement, error on a short buffer);
`Uint8` and `Bool` index `data.read(1)` (error at end-of-file). -/
def read_value : Nat → Nat → BondType → List Nat →
    Except DecodeError (BondValue × List Nat)
  | 0, _, _, _ => .error .outOfFuel
  | Nat.succ fuel, id, t, s =>
    match t with
    | .Struct =>
      match read_struct fuel s with
      | .error e => .error e
      | .ok (vs, rest) => .ok (.mk id t (.seq vs), rest)
    | .Int32 =>
      match sleb128_decode s with
      | .error e => .error e
      | .ok (i, rest) => .ok (.mk id t (.int i), rest)
    | .Int64 =>
      match sleb128_decode s with
      | .error e => .error e
      | .ok (i, rest) => .ok (.mk id t (.int i), rest)
    | .Int16 =>
      match sleb128_decode s with
      | .error e => .error e
      | .ok (i, rest) => .ok (.mk id t (.int i), rest)
    | .Uint16 =>
      match uleb128_decode s with
      | .error e => .error e
      | .ok (u, rest) => .ok (.mk id t (.int u), rest)
    | .Uint32 =>
      match uleb128_decode s with
      | .error e => .error e
      | .ok (u, rest) => .ok (.mk id t (.int u), rest)
    | .Uint64 =>
      match uleb128_decode s with
      | .error e => .error e
      | .ok (u, rest) => .ok (.mk id t (.int u), rest)
    | .Uint8 =>
      match read1 s with
      | .error e => .error e
      | .ok (b, rest) => .ok (.mk id t (.int b), rest)
    | .Int8 =>
      match s with
      | [] => .error .unpackError
      | b :: rest =>
        .ok (.mk id t (.int (if b < 128 then (b : Int) else (b : Int) - 256)), rest)
    | .Bool =>
      match read1 s with
      | .error e => .error e
      | .ok (b, rest) => .ok (.mk id t (.bool (b != 0)), rest)
    | .Float =>
      if 4 ≤ s.length then .ok (.mk id t (.floatBits (s.take 4)), s.drop 4)
      else .error .unpackError
    | .Double =>
      if 8 ≤ s.length then .ok (.mk id t (.floatBits (s.take 8)), s.drop 8)
      else .error .unpackError
    | .Set =>
      match read_list fuel s with
      | .error e => .error e
      | .ok (vs, rest) => .ok (.mk id t (.seq vs), rest)
    | .List =>
      match read_list fuel s with
      | .error e => .error e
      | .ok (vs, rest) => .ok (.mk id t (.seq vs), rest)
    | .Map =>
      match read_map fuel s with
      | .error e => .error e
      | .ok (ps, rest) => .ok (.mk id t (.mapPairs ps), rest)
    | .Wstring =>
      match read_wstring s with
      | .error e => .error e
      | .ok (cps, rest) => .ok (.mk id t (.str cps), rest)
    | .String =>
      match read_string s with
      | .error e => .error e
      | .ok (cps, rest) => .ok (.mk id t (.str cps), rest)
    | .Stop => .ok (.mk id t .none, s)
    | .StopBase => .ok (.mk id t .none, s)
    | .Unavailable => .ok (.mk id t .none, s)

/-- Function `_read_list` from `src/madeleine/_bond_reader.py`.  (The Python function
also receives the enclosing container's element type, but immediately
shadows it with the tag read by `_get_type_count`, so that parameter is
dropped here.)  Element types `List`, `Int8` and `Uint8` are not decoded:
`_read_blobs` seeks `count` bytes forward and the value list stays empty;
any other element type decodes `count` elements. -/
def read_list : Nat → List Nat → Except DecodeError (List BondValue × List Nat)
  | 0, _ => .error .outOfFuel
  | Nat.succ fuel, s =>
    match get_type_count s with
    | .error e => .error e
    | .ok ((t, count), s1) =>
      if t = .List ∨ t = .Int8 ∨ t = .Uint8 then
        .ok ([], s1.drop count)
      else
        read_list_elems fuel t count s1

/-- The `for _ in range(count)` loop of `_read_list`: decode `count` values
of type `t`, each with id 0, in order. -/
def read_list_elems : Nat → BondType → Nat → List Nat →
    Except DecodeError (List BondValue × List Nat)
  | 0, _, _, _ => .error .outOfFuel
  | Nat.succ _, _, 0, s => .ok ([], s)
  | Nat.succ fuel, t, Nat.succ count, s =>
    match read_value fuel 0 t s with
    | .error e => .error e
    | .ok (v, s1) =>
      match read_list_elems fuel t count s1 with
      | .error e => .error e
      | .ok (vs, s2) => .ok (v :: vs, s2)

/-- Function `_read_map` from `src/madeleine/_bond_reader.py`: one byte each for the
key and value type tags (only the low 5 bits are interpreted), an unsigned
varint entry count, then the entries. -/
def read_map : Nat → List Nat → Except DecodeError (List (BondValue × BondValue) × List Nat)
  | 0, _ => .error .outOfFuel
  | Nat.succ fuel, s =>
    match read1 s with
    | .error e => .error e
    | .ok (kb, s1) =>
      match toBondType (kb &&& 0x1F) with
      | Option.none => .error .invalidTag
      | some key_type =>
        match read1 s1 with
        | .error e => .error e
        | .ok (vb, s2) =>
          match toBondType (vb &&& 0x1F) with
          | Option.none => .error .invalidTag
          | some value_type =>
            match uleb128_decode s2 with
            | .error e => .error e
            | .ok (count, s3) => read_map_pairs fuel key_type value_type count s3

/-- The `for _ in range(count)` loop of `_read_map`: decode `count` (key,
value) pairs in order, each side with id 0.  Python stores them with
`values[key] = value` into a `dict` whose keys are compared by object
identity (`BondValue` defines no `__eq__`/`__hash__`); every decoded key is
a fresh object, so each iteration appends a new entry and nothing is ever
overwritten — hence the insertion-ordered pair list. -/
def read_map_pairs : Nat → BondType → BondType → Nat → List Nat →
    Except DecodeError (List (BondValue × BondValue) × List Nat)
  | 0, _, _, _, _ => .error .outOfFuel
  | Nat.succ _, _, _, 0, s => .ok ([], s)
  | Nat.succ fuel, kt, vt, Nat.succ count, s =>
    match read_value fuel 0 kt s with
    | .error e => .error e
    | .ok (k, s1) =>
      match read_value fuel 0 vt s1 with
      | .error e => .error e
      | .ok (v, s2) =>
        match read_map_pairs fuel kt vt count s2 with
        | .error e => .error e
        | .ok (ps, s3) => .ok ((k, v) :: ps, s3)

/-- Function `_read_field` from `src/madeleine/_bond_reader.py`: read the packed
header, then the value. -/
def read_field : Nat → List Nat → Except DecodeError (BondValue × List Nat)
  | 0, _ => .error .outOfFuel
  | Nat.succ fuel, s =>
    match type_and_id s with
    | .error e => .error e
    | .ok ((id, t), s1) => read_value fuel id t s1

/-- Function `_read_struct` from `src/madeleine/_bond_reader.py`: read the declared
byte length (unused beyond being consumed), then run the field loop. -/
def read_struct : Nat → List Nat → Except DecodeError (List BondValue × List Nat)
  | 0, _ => .error .outOfFuel
  | Nat.succ fuel, s =>
    match uleb128_decode s with
    | .error e => .error e
    | .ok (_length, s1) => read_struct_loop fuel s1

/-- The `while True` loop of `_read_struct`: read a field; a `Stop` field
breaks (the field is dropped, its id never used), a `StopBase` field is
dropped and the loop continues, any other field is appended. -/
def read_struct_loop : Nat → List Nat → Except DecodeError (List BondValue × List Nat)
  | 0, _ => .error .outOfFuel
  | Nat.succ fuel, s =>
    match read_field fuel s with
    | .error e => .error e
    | .ok (val, s1) =>
      match val.type with
      | .Stop => .ok ([], s1)
      | .StopBase => read_struct_loop fuel s1
      | _ =>
        match read_struct_loop fuel s1 with
        | .error e => .error e
        | .ok (vs, s2) => .ok (val :: vs, s2)

end

/-- Function `_get_base_struct` from `src/madeleine/_bond_reader.py`: wrap the
decoded field list in a root node with id 0 and type `Struct`.  The
unconsumed remainder of the byte source is returned alongside. -/
def get_base_struct (fuel : Nat) (s : List Nat) :
    Except DecodeError (BondValue × List Nat) :=
  match read_struct fuel s with
  | .error e => .error e
  | .ok (vs, rest) => .ok (.mk 0 .Struct (.seq vs), rest)

/-- Method `BondValue.get_elements` from `src/madeleine/_madeleine.py`: the child
list of a `List`/`Set`/`Struct` node whose payload is in fact a list,
otherwise empty. -/
def BondValue.get_elements (self : BondValue) : List BondValue :=
  if self.type = .List ∨ self.type = .Set ∨ self.type = .Struct then
    match self.value with
    | .seq l => l
    | _ => []
  else []

/-- Method `BondValue.get_by_id` from `src/madeleine/_madeleine.py`: the first
direct child with the given id. -/
def BondValue.get_by_id (self : BondValue) (id : Nat) : Option BondValue :=
  self.get_elements.find? (fun e => e.id == id)

/-- Method `BondValue.traverse` from `src/madeleine/_madeleine.py`, verbatim
including its recursive call `element.traverse(index + 1, *ids)` — which
passes `index + 1` as a *leading extra id* (it lands in the `*ids` varargs)
and lets `index` fall back to its default 0.  `ids.getD index 0` models
Python's `ids[index]`; the default is never reached when the top-level call
has non-empty `ids` and `index = 0`, since every recursive call grows `ids`
and passes `index = 0`.  The fuel only caps the recursion depth (each
recursive step descends to a strict child, so any fuel exceeding the tree
depth gives the Python result); `Option.none` is unreachable then. -/
def BondValue.traverse : Nat → BondValue → List Nat → Nat → Option BondValue
  | 0, _, _, _ => Option.none
  | Nat.succ fuel, self, ids, index =>
    match self.get_elements.find? (fun e => e.id == ids.getD index 0) with
    | some element =>
      if index = ids.length - 1 then some element
      else BondValue.traverse fuel element ((index + 1) :: ids) 0
    | Option.none => some self

/-! ## Supporting lemmas -/

/-- The mathematical base-128 value of a varint's byte groups, least
significant group first: `Σ (bᵢ mod 128) · 128^i`. -/
def base128 : List Nat → Nat
  | [] => 0
  | b :: rest => b % 128 + 128 * base128 rest

/-- ORing a value below `2 ^ shift` with anything shifted left by `shift`
is carry-free addition. -/
theorem lor_shiftLeft_eq_add (acc q shift : Nat) (h : acc < 2 ^ shift) :
    acc ||| (q <<< shift) = 2 ^ shift * q + acc := by
  apply Nat.eq_of_testBit_eq
  intro j
  rw [Nat.testBit_or, Nat.testBit_shiftLeft, Nat.testBit_mul_pow_two_add q h j]
  by_cases hj : j < shift
  · simp [hj, Nat.not_le.mpr hj]
  · have hb : acc.testBit j = false :=
      Nat.testBit_lt_two_pow
        (lt_of_lt_of_le h (Nat.pow_le_pow_right (by omega) (Nat.not_lt.mp hj)))
    simp [hj, Nat.not_lt.mp hj, hb]

/-- Masking with `0x7F` is reduction mod 128. -/
theorem and_127_eq_mod (b : Nat) : b &&& 0x7F = b % 128 := by
  have h := Nat.and_pow_two_sub_one_eq_mod b 7
  norm_num at h
  exact h

/-- The accumulator loop of `_uleb128_decode` computes the exact base-128
value of the consumed bytes (shifted into place above the bits already
accumulated), with no reduction of any kind: `result` is a Python `int`. -/
theorem uleb128_loop_exact :
    ∀ (pre : List Nat) (last : Nat) (tail : List Nat) (shift acc : Nat),
      (∀ b ∈ pre, b &&& 0x80 ≠ 0) → last &&& 0x80 = 0 → acc < 2 ^ shift →
      uleb128_loop (pre ++ last :: tail) shift acc =
        .ok (acc + 2 ^ shift * base128 (pre ++ [last]), tail) := by
  intro pre
  induction pre with
  | nil =>
    intro last tail shift acc _ hlast hacc
    simp only [List.nil_append, uleb128_loop, hlast, if_pos]
    rw [lor_shiftLeft_eq_add _ _ _ hacc, and_127_eq_mod]
    simp [base128]
    ring
  | cons b pre ih =>
    intro last tail shift acc hpre hlast hacc
    have hb : b &&& 0x80 ≠ 0 := hpre b (by simp)
    simp only [List.cons_append, uleb128_loop, hb, if_neg, if_false]
    rw [lor_shiftLeft_eq_add _ _ _ hacc, and_127_eq_mod]
    have hlt : 2 ^ shift * (b % 128) + acc < 2 ^ (shift + 7) := by
      have h1 : b % 128 ≤ 127 := by omega
      have h2 : 2 ^ shift * (b % 128) ≤ 2 ^ shift * 127 :=
        Nat.mul_le_mul_left _ h1
      have h3 : (2 : Nat) ^ (shift + 7) = 2 ^ shift * 128 := by
        rw [pow_add]; norm_num
      omega
    simp only [List.append_eq]
    rw [ih last tail (shift + 7) _ (fun x hx => hpre x (by simp [hx])) hlast hlt]
    have h3 : (2 : Nat) ^ (shift + 7) = 2 ^ shift * 128 := by
      rw [pow_add]; norm_num
    simp only [base128, h3]
    ring_nf

/-- If every remaining byte has its continuation bit set, the accumulator
loop runs off the end of the source and fails. -/
theorem uleb128_loop_all_high :
    ∀ (s : List Nat) (shift acc : Nat), (∀ b ∈ s, b &&& 0x80 ≠ 0) →
      uleb128_loop s shift acc = .error .truncatedInput := by
  intro s
  induction s with
  | nil => intro shift acc _; rfl
  | cons b rest ih =>
    intro shift acc h
    have hb : b &&& 0x80 ≠ 0 := h b (by simp)
    simp only [uleb128_loop, hb, if_neg, if_false]
    exact ih _ _ (fun x hx => h x (by simp [hx]))

/-- The field loop never keeps a `Stop` or `StopBase` field: whatever it
returns contains neither. -/
theorem read_struct_loop_no_stop :
    ∀ (fuel : Nat) (s : List Nat) (vs : List BondValue) (s' : List Nat),
      read_struct_loop fuel s = .ok (vs, s') →
      ∀ v ∈ vs, v.type ≠ .Stop ∧ v.type ≠ .StopBase := by
  intro fuel
  induction fuel with
  | zero => intro s vs s' h; simp [read_struct_loop] at h
  | succ n ih =>
    intro s vs s' h
    rw [read_struct_loop] at h
    cases hf : read_field n s with
    | error e => rw [hf] at h; simp at h
    | ok p =>
      obtain ⟨val, s1⟩ := p
      simp only [hf] at h
      obtain ⟨id, t, payload⟩ := val
      simp only [BondValue.type] at h ⊢
      cases t
      case Stop =>
        simp only [Except.ok.injEq, Prod.mk.injEq] at h
        intro v hv
        rw [← h.1] at hv
        simp at hv
      case StopBase => exact ih _ _ _ h
      all_goals
        cases hrec : read_struct_loop n s1 with
        | error e => rw [hrec] at h; simp at h
        | ok q =>
          obtain ⟨vs2, s2⟩ := q
          simp only [hrec] at h
          simp only [Except.ok.injEq, Prod.mk.injEq] at h
          intro v hv
          rw [← h.1] at hv
          rcases List.mem_cons.mp hv with rfl | hv2
          · exact ⟨by simp [BondValue.type], by simp [BondValue.type]⟩
          · exact ih _ _ _ hrec v hv2

/-- Every successful run of the map-pair loop yields exactly `count`
entries: nothing is merged or overwritten. -/
theorem read_map_pairs_length :
    ∀ (fuel : Nat) (kt vt : BondType) (count : Nat) (s : List Nat)
      (ps : List (BondValue × BondValue)) (s' : List Nat),
      read_map_pairs fuel kt vt count s = .ok (ps, s') → ps.length = count := by
  intro fuel
  induction fuel with
  | zero => intro kt vt count s ps s' h; simp [read_map_pairs] at h
  | succ n ih =>
    intro kt vt count s ps s' h
    match count with
    | 0 =>
      simp only [read_map_pairs, Except.ok.injEq, Prod.mk.injEq] at h
      simp [← h.1]
    | Nat.succ c =>
      rw [read_map_pairs] at h
      cases hk : read_value n 0 kt s with
      | error e => rw [hk] at h; simp at h
      | ok pk =>
        obtain ⟨k, s1⟩ := pk
        simp only [hk] at h
        cases hv : read_value n 0 vt s1 with
        | error e => rw [hv] at h; simp at h
        | ok pv =>
          obtain ⟨v, s2⟩ := pv
          simp only [hv] at h
          cases hr : read_map_pairs n kt vt c s2 with
          | error e => rw [hr] at h; simp at h
          | ok pr =>
            obtain ⟨ps2, s3⟩ := pr
            simp only [hr] at h
            simp only [Except.ok.injEq, Prod.mk.injEq] at h
            have := ih kt vt c s2 ps2 s3 hr
            simp [← h.1, this]

/-- Every successful run of the list-element loop yields exactly `count`
elements. -/
theorem read_list_elems_length :
    ∀ (fuel : Nat) (t : BondType) (count : Nat) (s : List Nat)
      (vs : List BondValue) (s' : List Nat),
      read_list_elems fuel t count s = .ok (vs, s') → vs.length = count := by
  intro fuel
  induction fuel with
  | zero => intro t count s vs s' h; simp [read_list_elems] at h
  | succ n ih =>
    intro t count s vs s' h
    match count with
    | 0 =>
      simp only [read_list_elems, Except.ok.injEq, Prod.mk.injEq] at h
      simp [← h.1]
    | Nat.succ c =>
      rw [read_list_elems] at h
      cases hv : read_value n 0 t s with
      | error e => rw [hv] at h; simp at h
      | ok pv =>
        obtain ⟨v, s1⟩ := pv
        simp only [hv] at h
        cases hr : read_list_elems n t c s1 with
        | error e => rw [hr] at h; simp at h
        | ok pr =>
          obtain ⟨vs2, s2⟩ := pr
          simp only [hr] at h
          simp only [Except.ok.injEq, Prod.mk.injEq] at h
          have := ih t c s1 vs2 s2 hr
          simp [← h.1, this]

/-! ## Claims -/

/-- Claim C1 (code bug): at the spec's own example — a root holding a child
struct with id 1 that holds a string child with id 2 — `traverse([1, 2])`
is claimed to return the id-2 string node, with `traverse([1, 9])`
returning the id-1 node.  The code instead returns the id-1 node for
*both* paths: the recursive call `element.traverse(index + 1, *ids)` in
`_madeleine.py` pushes `index + 1` onto the front of `ids` (the varargs)
and restarts with `index = 0`, so after the first hop the walk looks for a
child whose id equals the old index plus one, never for `ids[1]`.  Fuel 10
exceeds the depth of this tree, so these are the Python results. -/
theorem traverse_misroutes_path_at_failing_input :
    BondValue.traverse 10
        (.mk 0 .Struct (.seq [.mk 1 .Struct (.seq [.mk 2 .String (.str [120])])]))
        [1, 2] 0
      = some (.mk 1 .Struct (.seq [.mk 2 .String (.str [120])])) ∧
    BondValue.traverse 10
        (.mk 0 .Struct (.seq [.mk 1 .Struct (.seq [.mk 2 .String (.str [120])])]))
        [1, 9] 0
      = some (.mk 1 .Struct (.seq [.mk 2 .String (.str [120])])) ∧
    BondValue.traverse 10
        (.mk 0 .Struct (.seq [.mk 1 .Struct (.seq [.mk 2 .String (.str [120])])]))
        [1, 2] 0
      ≠ some (.mk 2 .String (.str [120])) := by
  refine ⟨rfl, rfl, ?_⟩
  intro h
  rw [show BondValue.traverse 10
        (.mk 0 .Struct (.seq [.mk 1 .Struct (.seq [.mk 2 .String (.str [120])])]))
        [1, 2] 0
      = some (.mk 1 .Struct (.seq [.mk 2 .String (.str [120])])) from rfl] at h
  simp only [Option.some.injEq, BondValue.mk.injEq] at h
  omega

/-- Claim C2: the field loop of `_read_struct` terminates exactly on a
`Stop` field, which is discarded with its id ignored; a `StopBase` field is
discarded but the loop continues; every other field is appended in order —
and no `Stop`/`StopBase` ever appears among the returned children.  A
stream of a length varint followed by a single `Stop` tag byte decodes to
a struct with no children, consuming nothing past the `Stop` byte. -/
theorem struct_loop_terminates_exactly_on_stop :
    (∀ (n : Nat) (s : List Nat) (v : BondValue) (s' : List Nat),
      read_field n s = .ok (v, s') →
      read_struct_loop (n + 1) s =
        if v.type = .Stop then .ok ([], s')
        else if v.type = .StopBase then read_struct_loop n s'
        else
          match read_struct_loop n s' with
          | .error e => .error e
          | .ok (vs, s2) => .ok (v :: vs, s2)) ∧
    (∀ (fuel : Nat) (s : List Nat) (vs : List BondValue) (s' : List Nat),
      read_struct_loop fuel s = .ok (vs, s') →
      ∀ v ∈ vs, v.type ≠ .Stop ∧ v.type ≠ .StopBase) ∧
    get_base_struct 9 [0x00, 0x00, 0xAB] = .ok (.mk 0 .Struct (.seq []), [0xAB]) := by
  refine ⟨?_, read_struct_loop_no_stop, rfl⟩
  intro n s v s' h
  rw [read_struct_loop, h]
  obtain ⟨id, t, payload⟩ := v
  simp only [BondValue.type]
  cases t <;> simp

/-- Witness for C2 at a concrete input: the field at `[0x00, 9]` is a
`Stop`, and the loop equation collapses to an immediate empty result. -/
theorem struct_loop_terminates_exactly_on_stop_witness :
    read_struct_loop 4 [0x00, 9] = .ok ([], [9]) := by
  have h := struct_loop_terminates_exactly_on_stop.1 3 [0x00, 9]
    (.mk 0 .Stop .none) [9] rfl
  simpa using h

/-- Claim C3: `_read_list` decodes the container tag; when the element type
is `List`, `Int8` or `Uint8` it decodes no element — it drops exactly
`count` bytes (the single relative seek of `_read_blobs`) and returns an
empty child list; for every other element type it runs the element loop,
which decodes exactly `count` children of that type in order, each with
id 0.  Concretely, a `List` tag with element type `Uint8` and count 5
skips exactly the 5 payload bytes. -/
theorem read_list_blob_skip_and_element_decode :
    (∀ (n : Nat) (s : List Nat) (t : BondType) (count : Nat) (s1 : List Nat),
      get_type_count s = .ok ((t, count), s1) →
      (t = .List ∨ t = .Int8 ∨ t = .Uint8) →
      read_list (n + 1) s = .ok ([], s1.drop count)) ∧
    (∀ (n : Nat) (s : List Nat) (t : BondType) (count : Nat) (s1 : List Nat),
      get_type_count s = .ok ((t, count), s1) →
      ¬(t = .List ∨ t = .Int8 ∨ t = .Uint8) →
      read_list (n + 1) s = read_list_elems n t count s1) ∧
    (∀ (n : Nat) (t : BondType) (count : Nat) (s : List Nat),
      read_list_elems (n + 1) t (count + 1) s =
        match read_value n 0 t s with
        | .error e => .error e
        | .ok (v, s1) =>
          match read_list_elems n t count s1 with
          | .error e => .error e
          | .ok (vs, s2) => .ok (v :: vs, s2)) ∧
    (∀ (fuel : Nat) (t : BondType) (count : Nat) (s : List Nat)
        (vs : List BondValue) (s' : List Nat),
      read_list_elems fuel t count s = .ok (vs, s') → vs.length = count) ∧
    read_list 9 [0xC3, 9, 9, 9, 9, 9, 7, 7] = .ok ([], [7, 7]) := by
  refine ⟨?_, ?_, ?_, read_list_elems_length, rfl⟩
  · intro n s t count s1 h ht
    rw [read_list, h]
    simp [ht]
  · intro n s t count s1 h ht
    rw [read_list, h]
    simp [ht]
  · intro n t count s
    rfl

/-- Witness for C3 at concrete inputs: a `Set`-of-`Bool` tag decodes its
two elements, a `List`-of-`Uint8` tag skips its five bytes. -/
theorem read_list_blob_skip_and_element_decode_witness :
    read_list 9 [0x62, 1, 0, 5] =
      .ok ([.mk 0 .Bool (.bool true), .mk 0 .Bool (.bool false)], [5]) ∧
    read_list 9 [0xC3, 9, 9, 9, 9, 9, 7, 7] = .ok ([], [7, 7]) := by
  constructor
  · have h := read_list_blob_skip_and_element_decode.2.1 8 [0x62, 1, 0, 5]
      .Bool 2 [1, 0, 5] rfl (by simp)
    rw [h]
    rfl
  · have h := read_list_blob_skip_and_element_decode.1 8 [0xC3, 9, 9, 9, 9, 9, 7, 7]
      .Uint8 5 [9, 9, 9, 9, 9, 7, 7] rfl (by simp)
    simpa using h

/-- Claim C4: `_type_and_id` takes the low 5 bits of the header byte as the
type tag and the high 3 bits as the id selector: a selector in `[0, 5]` is
itself the id with no extra byte consumed; selector 6 takes the id from the
next single byte; selector 7 takes it from the next two bytes read as a
little-endian 16-bit value.  (When the low 5 bits are not a catalogued tag
the Python code raises before touching any id byte, hence the `toBondType`
hypothesis.) -/
theorem type_and_id_selector_packing :
    ∀ (b : Nat) (t : BondType), toBondType (b &&& 0x1F) = some t →
      (∀ rest : List Nat, b >>> 5 ≤ 5 →
        type_and_id (b :: rest) = .ok ((b >>> 5, t), rest)) ∧
      (∀ (i : Nat) (rest : List Nat), b >>> 5 = 6 → i < 256 →
        type_and_id (b :: i :: rest) = .ok ((i, t), rest)) ∧
      (∀ (i j : Nat) (rest : List Nat), b >>> 5 = 7 → i < 256 → j < 256 →
        type_and_id (b :: i :: j :: rest) = .ok ((i + 256 * j, t), rest)) := by
  intro b t htag
  refine ⟨?_, ?_, ?_⟩
  · intro rest hsel
    simp only [type_and_id, read1, htag]
    rw [if_neg (by omega), if_neg (by omega)]
  · intro i rest hsel _
    simp only [type_and_id, read1, htag]
    rw [if_pos hsel]
  · intro i j rest hsel _ _
    simp only [type_and_id, read1, htag]
    rw [if_neg (by omega), if_pos hsel]
    simp [fromLE]

/-- Witness for C4 at concrete header bytes: selector 2 on a `Struct` tag,
selector 6 with a one-byte id, selector 7 with a little-endian two-byte
id. -/
theorem type_and_id_selector_packing_witness :
    type_and_id [0x4A, 5] = .ok ((2, .Struct), [5]) ∧
    type_and_id [0xC9, 0x21, 5] = .ok ((0x21, .String), [5]) ∧
    type_and_id [0xE9, 0x01, 0x02, 5] = .ok ((0x0201, .String), [5]) := by
  refine ⟨?_, ?_, ?_⟩
  · exact (type_and_id_selector_packing 0x4A .Struct rfl).1 [5] (by decide)
  · exact (type_and_id_selector_packing 0xC9 .String rfl).2.1 0x21 [5]
      (by decide) (by decide)
  · have h := (type_and_id_selector_packing 0xE9 .String rfl).2.2 0x01 0x02 [5]
      (by decide) (by decide) (by decide)
    simpa using h

/-- Claim C5: `_get_type_count` takes the low 5 bits of the container tag
byte as the element type and the high 3 bits as the count selector:
selector 0 defers the count to a following unsigned varint, any other
selector stands for the count `selector - 1` with no extra byte consumed.
The byte `0b011_00011` decodes to element type `Uint8` and count 2. -/
theorem get_type_count_selector_packing :
    (∀ (b : Nat) (t : BondType) (rest : List Nat),
      toBondType (b &&& 0x1F) = some t → b >>> 5 = 0 →
      get_type_count (b :: rest) =
        match uleb128_decode rest with
        | .error e => .error e
        | .ok (n, s2) => .ok ((t, n), s2)) ∧
    (∀ (b : Nat) (t : BondType) (rest : List Nat),
      toBondType (b &&& 0x1F) = some t → b >>> 5 ≠ 0 →
      get_type_count (b :: rest) = .ok ((t, b >>> 5 - 1), rest)) ∧
    (∀ rest : List Nat, get_type_count (0x63 :: rest) = .ok ((.Uint8, 2), rest)) := by
  refine ⟨?_, ?_, fun rest => rfl⟩
  · intro b t rest htag hsel
    simp only [get_type_count, read1, htag]
    rw [if_pos hsel]
  · intro b t rest htag hsel
    simp only [get_type_count, read1, htag]
    rw [if_neg hsel]

/-- Witness for C5 at concrete tag bytes: a varint count after selector 0,
an inline count from selector 3. -/
theorem get_type_count_selector_packing_witness :
    get_type_count [0x03, 0x07, 9] = .ok ((.Uint8, 7), [9]) ∧
    get_type_count [0x63, 9] = .ok ((.Uint8, 2), [9]) := by
  constructor
  · have h := get_type_count_selector_packing.1 0x03 .Uint8 [0x07, 9] rfl rfl
    simpa using h
  · exact get_type_count_selector_packing.2.2 [9]

/-- Claim C10: `_read_map` interprets only the low 5 bits of the key-type
and value-type bytes; their high 3 bits are ignored entirely, so two byte
streams whose first two bytes agree on the low 5 bits decode to the same
map, errors included. -/
theorem read_map_type_high_bits_ignored :
    ∀ (fuel : Nat) (kb kb' vb vb' : Nat) (rest : List Nat),
      kb &&& 0x1F = kb' &&& 0x1F → vb &&& 0x1F = vb' &&& 0x1F →
      read_map fuel (kb :: vb :: rest) = read_map fuel (kb' :: vb' :: rest) := by
  intro fuel kb kb' vb vb' rest hk hv
  cases fuel with
  | zero => rfl
  | succ n =>
    simp only [read_map, read1]
    rw [hk, hv]

/-- Witness for C10 at a concrete input: setting all three high bits of
both type bytes (`0x03 → 0xE3`) leaves the decoded map unchanged. -/
theorem read_map_type_high_bits_ignored_witness :
    read_map 9 [0xE3, 0xE3, 1, 5, 6] = read_map 9 [0x03, 0x03, 1, 5, 6] ∧
    read_map 9 [0x03, 0x03, 1, 5, 6] =
      .ok ([(.mk 0 .Uint8 (.int 5), .mk 0 .Uint8 (.int 6))], []) := by
  exact ⟨read_map_type_high_bits_ignored 9 0xE3 0x03 0xE3 0x03 [1, 5, 6] rfl rfl, rfl⟩

/-- Claim C6 (counterexample): a map of key type `Uint8`, value type
`Uint8`, count 2, whose two entries carry the *same* decoded key
(`BondValue(0, Uint8, 7)`): the claim says the later entry overwrites the
earlier one, leaving only the last value for that key — but the decoded
mapping retains both entries (Python's `dict` keys the fresh `BondValue`
objects by identity, so structurally equal keys never collide). -/
theorem read_map_duplicate_key_kept_cx :
    read_map 9 [0x03, 0x03, 2, 7, 1, 7, 2] =
      .ok ([(.mk 0 .Uint8 (.int 7), .mk 0 .Uint8 (.int 1)),
            (.mk 0 .Uint8 (.int 7), .mk 0 .Uint8 (.int 2))], []) ∧
    (match read_map 9 [0x03, 0x03, 2, 7, 1, 7, 2] with
     | .ok (ps, _) => ps.length
     | .error _ => 0) = 2 ∧
    (BondValue.mk 0 .Uint8 (.int 1)) ≠ (BondValue.mk 0 .Uint8 (.int 2)) := by
  refine ⟨rfl, rfl, ?_⟩
  intro h
  simp only [BondValue.mk.injEq, BondPayload.int.injEq] at h
  omega

/-- Claim C6 (amended): the `count` (key, value) pairs are decoded in
order, each side with id 0, and assembled into an insertion-ordered
mapping; because `BondValue` keys are fresh objects compared by identity,
no entry ever overwrites another — every successful decode holds exactly
`count` entries, even when decoded keys are structurally equal. -/
theorem read_map_pairs_ordered_no_overwrite :
    (∀ (fuel : Nat) (kt vt : BondType) (count : Nat) (s : List Nat)
        (ps : List (BondValue × BondValue)) (s' : List Nat),
      read_map_pairs fuel kt vt count s = .ok (ps, s') → ps.length = count) ∧
    (∀ (n : Nat) (kt vt : BondType) (count : Nat) (s : List Nat),
      read_map_pairs (n + 1) kt vt (count + 1) s =
        match read_value n 0 kt s with
        | .error e => .error e
        | .ok (k, s1) =>
          match read_value n 0 vt s1 with
          | .error e => .error e
          | .ok (v, s2) =>
            match read_map_pairs n kt vt count s2 with
            | .error e => .error e
            | .ok (ps, s3) => .ok ((k, v) :: ps, s3)) ∧
    read_map 9 [0x03, 0x03, 2, 5, 1, 5, 9] =
      .ok ([(.mk 0 .Uint8 (.int 5), .mk 0 .Uint8 (.int 1)),
            (.mk 0 .Uint8 (.int 5), .mk 0 .Uint8 (.int 9))], []) :=
  ⟨read_map_pairs_length, fun _ _ _ _ _ => rfl, rfl⟩

/-- Witness for C6 (amended) at a concrete input: a two-entry map with
structurally equal keys decodes to a pair list of length 2. -/
theorem read_map_pairs_ordered_no_overwrite_witness :
    read_map_pairs 8 .Uint8 .Uint8 2 [5, 1, 5, 9] =
      .ok ([(.mk 0 .Uint8 (.int 5), .mk 0 .Uint8 (.int 1)),
            (.mk 0 .Uint8 (.int 5), .mk 0 .Uint8 (.int 9))], []) ∧
    ([(BondValue.mk 0 .Uint8 (.int 5), BondValue.mk 0 .Uint8 (.int 1)),
      (BondValue.mk 0 .Uint8 (.int 5), BondValue.mk 0 .Uint8 (.int 9))]).length = 2 :=
  ⟨rfl, read_map_pairs_ordered_no_overwrite.1 8 .Uint8 .Uint8 2 [5, 1, 5, 9] _ [] rfl⟩

/-- Claim C7 (counterexample): `[0x00, 0xE0, 0x05, 0x06]` is a well-formed
struct encoding (length varint 0, then a `Stop` field whose header uses id
selector 7 with two id bytes) that decodes successfully consuming all four
bytes — yet its truncations to three and even two bytes *also decode
successfully* instead of failing with a truncated-input error: the short
`data.read(2)` for the 16-bit id is accepted by `int.from_bytes`, the
field's type is still `Stop`, and the loop terminates normally. -/
theorem truncated_sel7_stop_header_success_cx :
    get_base_struct 9 [0x00, 0xE0, 0x05, 0x06] =
      .ok (.mk 0 .Struct (.seq []), []) ∧
    get_base_struct 9 [0x00, 0xE0, 0x05] = .ok (.mk 0 .Struct (.seq []), []) ∧
    get_base_struct 9 [0x00, 0xE0] = .ok (.mk 0 .Struct (.seq []), []) ∧
    get_base_struct 9 [0x00, 0xE0, 0x05] ≠ .error .truncatedInput ∧
    get_base_struct 9 [0x00, 0xE0] ≠ .error .truncatedInput := by
  refine ⟨rfl, rfl, rfl, ?_, ?_⟩
  · intro h
    rw [show get_base_struct 9 [0x00, 0xE0, 0x05]
          = .ok (.mk 0 .Struct (.seq []), []) from rfl] at h
    exact Except.noConfusion h
  · intro h
    rw [show get_base_struct 9 [0x00, 0xE0]
          = .ok (.mk 0 .Struct (.seq []), []) from rfl] at h
    exact Except.noConfusion h

/-- Claim C7 (amended): whenever the byte source is exhausted before a
varint's terminating byte — every remaining byte has its continuation bit
set — both varint decoders fail with the truncated-input error.
Truncating a well-formed struct encoding, however, does not always fail
with that error, and need not fail at all: a truncation inside a declared
`String` span surfaces as a string-decode error (the short read itself
succeeds, handing invalid UTF-8 to the decoder), and a truncation inside
the two id bytes of a selector-7 `Stop` field header decodes successfully
(see the counterexample).  Shown here: the varint part in full generality,
and a concrete well-formed stream (`[0x00, 0x09, 0x02, 0xC3, 0xA9, 0x00]`,
a struct holding the UTF-8 string `"é"`) whose 4-byte truncation fails
with the string error, not the truncation error. -/
theorem truncation_failure_and_exception_modes :
    (∀ s : List Nat, (∀ b ∈ s, b &&& 0x80 ≠ 0) →
      uleb128_decode s = .error .truncatedInput) ∧
    (∀ s : List Nat, (∀ b ∈ s, b &&& 0x80 ≠ 0) →
      sleb128_decode s = .error .truncatedInput) ∧
    get_base_struct 9 [0x00, 0x09, 0x02, 0xC3, 0xA9, 0x00] =
      .ok (.mk 0 .Struct (.seq [.mk 0 .String (.str [0xE9])]), []) ∧
    get_base_struct 9 [0x00, 0x09, 0x02, 0xC3] = .error .stringRead ∧
    DecodeError.stringRead ≠ DecodeError.truncatedInput := by
  refine ⟨?_, ?_, rfl, rfl, by decide⟩
  · intro s h
    exact uleb128_loop_all_high s 0 0 h
  · intro s h
    rw [sleb128_decode, uleb128_decode, uleb128_loop_all_high s 0 0 h]

/-- Witness for C7 (amended) at a concrete input: a lone continuation byte
exhausts the source and both decoders report truncation. -/
theorem truncation_failure_and_exception_modes_witness :
    uleb128_decode [0x80] = .error .truncatedInput ∧
    sleb128_decode [0x80, 0xFF] = .error .truncatedInput :=
  ⟨truncation_failure_and_exception_modes.1 [0x80] (by decide),
   truncation_failure_and_exception_modes.2.1 [0x80, 0xFF] (by decide)⟩

/-- Claim C8: a `String` field whose declared byte span is not valid UTF-8
fails with the string-decode error, a `Wstring` field whose `2N`-byte span
is not valid UTF-16 fails with the wide-string-decode error; in both cases
the error propagates through the field loop and `_read_struct` out of
`_get_base_struct` — it is never replaced by an empty string.  The two
concrete streams run the error end-to-end through the struct loop. -/
theorem string_decode_errors_propagate :
    (∀ (s : List Nat) (len : Nat) (s1 : List Nat),
      uleb128_decode s = .ok (len, s1) → utf8Decode (s1.take len) = Option.none →
      read_string s = .error .stringRead) ∧
    (∀ (s : List Nat) (len : Nat) (s1 : List Nat),
      uleb128_decode s = .ok (len, s1) →
      utf16Decode (s1.take (len * 2)) = Option.none →
      read_wstring s = .error .wstringRead) ∧
    (∀ (n : Nat) (s : List Nat) (e : DecodeError),
      read_field n s = .error e → read_struct_loop (n + 1) s = .error e) ∧
    (∀ (n : Nat) (s : List Nat) (len : Nat) (s1 : List Nat) (e : DecodeError),
      uleb128_decode s = .ok (len, s1) → read_struct_loop n s1 = .error e →
      read_struct (n + 1) s = .error e) ∧
    (∀ (fuel : Nat) (s : List Nat) (e : DecodeError),
      read_struct fuel s = .error e → get_base_struct fuel s = .error e) ∧
    get_base_struct 9 [0x00, 0x09, 0x01, 0xFF, 0x00] = .error .stringRead ∧
    get_base_struct 9 [0x00, 0x12, 0x01, 0x00, 0xD8, 0x00] = .error .wstringRead := by
  refine ⟨?_, ?_, ?_, ?_, ?_, rfl, rfl⟩
  · intro s len s1 h1 h2
    simp only [read_string, h1, h2]
  · intro s len s1 h1 h2
    simp only [read_wstring, h1, h2]
  · intro n s e h
    simp only [read_struct_loop, h]
  · intro n s len s1 e h1 h2
    simp only [read_struct, h1, h2]
  · intro fuel s e h
    simp only [get_base_struct, h]

/-- Witness for C8 at concrete inputs: the byte `0xFF` is not valid UTF-8,
the lone unit `0xD800` is not valid UTF-16, and a failing field aborts the
loop with the same error. -/
theorem string_decode_errors_propagate_witness :
    read_string [0x01, 0xFF] = .error .stringRead ∧
    read_wstring [0x01, 0x00, 0xD8] = .error .wstringRead ∧
    read_struct_loop 8 [0x09, 0x01, 0xFF, 0x00] = .error .stringRead :=
  ⟨string_decode_errors_propagate.1 [0x01, 0xFF] 1 [0xFF] rfl rfl,
   string_decode_errors_propagate.2.1 [0x01, 0x00, 0xD8] 1 [0x00, 0xD8] rfl rfl,
   string_decode_errors_propagate.2.2.1 7 [0x09, 0x01, 0xFF, 0x00] .stringRead rfl⟩

/-- Claim C9 (counterexample): the 11-byte encoding of `2 ^ 70` (ten
continuation bytes `0x80`, then `0x01`) decodes to exactly `2 ^ 70` — not
to `2 ^ 70 mod 2 ^ w` for a native width `w` of 64 (or 32) bits, which
would be `0`: the accumulator is a Python `int` and nothing wraps. -/
theorem uleb128_no_native_wrap_cx :
    uleb128_decode (List.replicate 10 0x80 ++ [0x01]) = .ok (1 <<< 70, []) ∧
    (1 <<< 70) % 2 ^ 64 ≠ 1 <<< 70 ∧
    (1 <<< 70) % 2 ^ 32 ≠ 1 <<< 70 := by
  refine ⟨rfl, by decide, by decide⟩

/-- Claim C9 (amended): `_uleb128_decode` enforces no upper bound on the
number of continuation bytes, and its arbitrary-precision accumulator
never wraps: for every encoding — any number of continuation bytes
followed by a terminating byte — the decoded result is the exact
mathematical base-128 value `Σ (bᵢ mod 128) · 128^i` of the consumed
bytes, with no modular reduction at any width. -/
theorem uleb128_exact_base128_value :
    ∀ (pre : List Nat) (last : Nat) (tail : List Nat),
      (∀ b ∈ pre, b &&& 0x80 ≠ 0) → last &&& 0x80 = 0 →
      uleb128_decode (pre ++ last :: tail) = .ok (base128 (pre ++ [last]), tail) := by
  intro pre last tail hpre hlast
  rw [uleb128_decode, uleb128_loop_exact pre last tail 0 0 hpre hlast (by norm_num)]
  norm_num

/-- Witness for C9 (amended) at a concrete input: `[0xAC, 0x02]` decodes
to exactly 300. -/
theorem uleb128_exact_base128_value_witness :
    uleb128_decode [0xAC, 0x02] = .ok (300, []) := by
  have h := uleb128_exact_base128_value [0xAC] 0x02 [] (by decide) (by decide)
  simpa [base128] using h

end Madeleine
